import Mathlib

/-!
Shallow embedding of the image-intake-to-estimate pipeline of `src/App.tsx`
(the `App` component: `handleImageUpload`, `handleRemoveImage`, `getEstimate`)
together with the data model of `types.ts`.

Modelling conventions:
* `FileWithPreview.preview` is an `Option String`: `FileReader.onloadend` fires
  on both success and failure, and on failure `reader.result` is `null`
  (modelled as `none`).
* A JavaScript value that may be `undefined` is an `Option`.
* The asynchronous decode of a submission batch is modelled by an explicit
  completion order: a list of indices into the batch, in the order in which the
  `onloadend` callbacks fire.  A completed batch corresponds to a completion
  order that is a permutation of the batch's index range.
* The awaited network call `generateDemolitionEstimate` is modelled by an
  oracle `NetCall`: it either resolves with a text or rejects with a value that
  is or is not an `instanceof Error`.
* The environment check `import.meta.env.VITE_GEMINI_API_KEY` is modelled by a
  boolean parameter `apiKey`.
-/

namespace KaitaiAI

/-- `FileWithPreview` of `types.ts`.  Only the `type` field of the wrapped
`File` is ever read (`img.file.type`), so the blob is modelled by its declared
media type.  `preview` is `reader.result` from `readAsDataURL`: a base64 data
URL on success, `null` (= `none`) when the read failed. -/
structure FileWithPreview where
  id : String
  fileType : String
  preview : Option String
  deriving Repr, DecidableEq

/-- `EstimationResult` of `types.ts`. -/
structure EstimationResult where
  text : String
  deriving Repr, DecidableEq

/-- The `inlineData` image-part record built in `getEstimate`
(lines 74-79 of `App.tsx`).  `data` is `img.preview.split(',')[1]`, which is
`undefined` (= `none`) when the preview holds no comma. -/
structure GeminiImagePart where
  mimeType : String
  data : Option String
  deriving Repr, DecidableEq

/-- The request payload handed to the estimation client: the fixed instruction
string plus the assembled image parts. -/
structure RequestPayload where
  instructionText : String
  imageParts : List GeminiImagePart
  deriving Repr, DecidableEq

/-- The component state of `App`: the four `useState` hooks. -/
structure SessionState where
  uploadedImages : List FileWithPreview
  estimationResult : Option EstimationResult
  isLoading : Bool
  error : Option String
  deriving Repr, DecidableEq

/-- A file selected into a submission batch, together with the outcome its
`FileReader` will eventually deliver: `some dataUrl` on a successful
`readAsDataURL`, `none` when the read fails (`reader.result` is `null`).
The fresh `crypto.randomUUID()` value the callback will assign is carried as
an opaque `id`. -/
structure PendingFile where
  id : String
  fileType : String
  decode : Option String
  deriving Repr, DecidableEq

/-- The outcome of the awaited `generateDemolitionEstimate` call:
resolution with a result text, or rejection with a value whose
`instanceof Error` status and message are recorded. -/
inductive NetCall where
  | success (text : String)
  | failure (isError : Bool) (msg : String)
  deriving Repr, DecidableEq

/-- One run of `getEstimate`: the sequence of state snapshots it passes
through (in order), whether the network client was invoked, and the final
state. -/
structure EstimateRun where
  states : List SessionState
  networkCalled : Bool
  final : SessionState
  deriving Repr, DecidableEq

/-- The validation message set when the collection is empty (line 46). -/
def validationMessage : String := "画像を1枚以上アップロードしてください。"

/-- The configuration message set when the API key is absent (line 58). -/
def apiKeyMessage : String := "APIキーが設定されていません。環境変数 API_KEY を設定してください。"

/-- The lead of the error message built in the `catch` branch for an
`instanceof Error` rejection (line 86): the template literal prepends this
string to `err.message`. -/
def estimateErrorLead : String := "現調中にエラーが発生しました: "

/-- The message set in the `catch` branch for a non-`Error` rejection
(line 88). -/
def unknownErrorMessage : String := "現調中に不明なエラーが発生しました。"

/-- The message of the `TypeError` the engine throws when
`img.preview.split` is read off a `null` preview (line 77). -/
def typeErrorMessage : String := "Cannot read properties of null (reading 'split')"

/-- Models JavaScript `String.prototype.split(',')` on the character list:
splits at every comma, keeping empty segments. -/
def splitCommaAux : List Char → List Char → List (List Char)
  | [], acc => [acc.reverse]
  | c :: cs, acc =>
    if c = ',' then acc.reverse :: splitCommaAux cs []
    else splitCommaAux cs (c :: acc)

/-- JavaScript `s.split(',')`. -/
def jsSplitComma (s : String) : List String :=
  (splitCommaAux s.data []).map List.asString

/-- Lines 74-79 of `App.tsx`, one image: builds the `inlineData` record
`{ mimeType: img.file.type, data: img.preview.split(',')[1] }`.  When the
preview is `null` the member access throws a `TypeError`, modelled as `none`. -/
def buildImagePart (img : FileWithPreview) : Option GeminiImagePart :=
  match img.preview with
  | none => none
  | some p => some { mimeType := img.fileType, data := (jsSplitComma p).get? 1 }

/-- Lines 74-79 of `App.tsx`: the `uploadedImages.map` building all image
parts; `none` models the `TypeError` thrown on the first `null` preview. -/
def buildImageParts : List FileWithPreview → Option (List GeminiImagePart)
  | [] => some []
  | img :: rest =>
    match buildImagePart img with
    | none => none
    | some part => (buildImageParts rest).map (fun parts => part :: parts)

/-- The request assembly of `getEstimate`: the fixed instruction string
together with the image parts of the current collection (lines 74-81). -/
def buildRequest (instructionText : String) (images : List FileWithPreview) :
    Option RequestPayload :=
  (buildImageParts images).map (fun parts => ⟨instructionText, parts⟩)

/-- The `FileWithPreview` pushed by the `onloadend` callback for a file
(lines 25-29): the generated id, the file, and `reader.result` (which is the
data URL on success and `null` on failure). -/
def fileToImage (f : PendingFile) : FileWithPreview :=
  ⟨f.id, f.fileType, f.decode⟩

/-- The `newImages` array once every callback of the batch has fired, given
the completion order of the callbacks: each callback pushes its image, so the
array lists the images in completion order. -/
def decodeBatch (files : List PendingFile) (order : List Nat) :
    List FileWithPreview :=
  order.filterMap (fun i => (files.get? i).map fileToImage)

/-- `handleImageUpload` (lines 18-38 of `App.tsx`), observed after the whole
batch has decoded: when the selection is empty no callback ever fires and the
state is untouched; otherwise the last callback finds
`newImages.length === files.length` and runs
`setUploadedImages(prev => [...prev, ...newImages].slice(0, 10))`. -/
def handleImageUpload (files : List PendingFile) (order : List Nat)
    (s : SessionState) : SessionState :=
  if files.isEmpty then s
  else { s with uploadedImages := (s.uploadedImages ++ decodeBatch files order).take 10 }

/-- `handleRemoveImage` (lines 40-42 of `App.tsx`):
`prevImages.filter(img => img.id !== imageId)`. -/
def handleRemoveImage (imageId : String) (s : SessionState) : SessionState :=
  { s with uploadedImages := s.uploadedImages.filter (fun img => img.id != imageId) }

/-- `getEstimate` (lines 44-93 of `App.tsx`).  Control flow:
empty collection → set the validation error and return (no network call);
otherwise set loading and clear result and error; if the API key is absent set
the configuration error and clear loading but fall through (the early return is
commented out); build the image parts (a `null` preview throws a `TypeError`
that the `catch` turns into an error message); otherwise await the network
call, storing the result text on resolution and an error message on rejection;
`finally` clears loading. -/
def getEstimate (apiKey : Bool) (net : NetCall) (s : SessionState) :
    EstimateRun :=
  if s.uploadedImages.isEmpty then
    let s1 := { s with error := some validationMessage }
    ⟨[s1], false, s1⟩
  else
    let s1 := { s with isLoading := true, error := none, estimationResult := none }
    let s2 := if apiKey then s1 else { s1 with error := some apiKeyMessage, isLoading := false }
    match buildImageParts s2.uploadedImages with
    | none =>
      let s3 := { s2 with error := some (estimateErrorLead ++ typeErrorMessage) }
      let s4 := { s3 with isLoading := false }
      ⟨[s1, s2, s3, s4], false, s4⟩
    | some _ =>
      match net with
      | .success t =>
        let s3 := { s2 with estimationResult := some ⟨t⟩ }
        let s4 := { s3 with isLoading := false }
        ⟨[s1, s2, s3, s4], true, s4⟩
      | .failure true msg =>
        let s3 := { s2 with error := some (estimateErrorLead ++ msg) }
        let s4 := { s3 with isLoading := false }
        ⟨[s1, s2, s3, s4], true, s4⟩
      | .failure false _ =>
        let s3 := { s2 with error := some unknownErrorMessage }
        let s4 := { s3 with isLoading := false }
        ⟨[s1, s2, s3, s4], true, s4⟩

/-- The initial component state: the four `useState` initial values. -/
def initialState : SessionState := ⟨[], none, false, none⟩

/-- One user-driven transition of the session state: a submission batch
completing (its completion order being some permutation of the batch), a
removal, or a full `getEstimate` run. -/
inductive Step : SessionState → SessionState → Prop where
  | upload (files : List PendingFile) (order : List Nat) (s : SessionState)
      (h : List.Perm order (List.range files.length)) :
      Step s (handleImageUpload files order s)
  | remove (imageId : String) (s : SessionState) :
      Step s (handleRemoveImage imageId s)
  | estimate (apiKey : Bool) (net : NetCall) (s : SessionState) :
      Step s (getEstimate apiKey net s).final

/-- A state reachable from the initial state by user-driven transitions. -/
def Reachable (s : SessionState) : Prop :=
  Relation.ReflTransGen Step initialState s

/-! ### Helper lemmas on comma splitting and request assembly -/

theorem splitCommaAux_no_comma (l acc : List Char) (h : ',' ∉ l) :
    splitCommaAux l acc = [acc.reverse ++ l] := by
  induction l generalizing acc with
  | nil => simp [splitCommaAux]
  | cons c cs ih =>
    have hc : c ≠ ',' := fun hc => h (hc ▸ List.mem_cons_self c cs)
    have hcs : ',' ∉ cs := fun hm => h (List.mem_cons_of_mem c hm)
    simp [splitCommaAux, hc, ih _ hcs, List.append_assoc]

theorem splitCommaAux_mid (pre rest acc : List Char) (h : ',' ∉ pre) :
    splitCommaAux (pre ++ ',' :: rest) acc
      = (acc.reverse ++ pre) :: splitCommaAux rest [] := by
  induction pre generalizing acc with
  | nil => simp [splitCommaAux]
  | cons c cs ih =>
    have hc : c ≠ ',' := fun hc => h (hc ▸ List.mem_cons_self c cs)
    have hcs : ',' ∉ cs := fun hm => h (List.mem_cons_of_mem c hm)
    simp [splitCommaAux, hc, ih _ hcs, List.append_assoc]

theorem jsSplitComma_of_single_comma (p : String) (pre rest : List Char)
    (hdata : p.data = pre ++ ',' :: rest) (hpre : ',' ∉ pre) (hrest : ',' ∉ rest) :
    jsSplitComma p = [pre.asString, rest.asString] := by
  unfold jsSplitComma
  rw [hdata, splitCommaAux_mid pre rest [] hpre, splitCommaAux_no_comma rest [] hrest]
  simp

theorem buildImageParts_get? (images : List FileWithPreview)
    (parts : List GeminiImagePart) (h : buildImageParts images = some parts) :
    parts.length = images.length ∧
      ∀ i img, images.get? i = some img →
        ∃ part, parts.get? i = some part ∧ buildImagePart img = some part := by
  induction images generalizing parts with
  | nil =>
    simp [buildImageParts] at h
    subst h
    simp
  | cons img rest ih =>
    unfold buildImageParts at h
    cases hp : buildImagePart img with
    | none => rw [hp] at h; exact absurd h (by simp)
    | some part =>
      rw [hp] at h
      rcases Option.map_eq_some'.mp h with ⟨ps, hps, hparts⟩
      rcases ih ps hps with ⟨hlen, hidx⟩
      subst hparts
      refine ⟨by simp [hlen], ?_⟩
      intro i im him
      cases i with
      | zero => exact ⟨part, by simp, by simp at him; rwa [him] at hp⟩
      | succ n => exact hidx n im him

/-- The per-image content the request assembly actually reads: the declared
media type and the preview data URL (the generated id is not read). -/
def imageContent (img : FileWithPreview) : String × Option String :=
  (img.fileType, img.preview)

theorem buildImagePart_congr (a b : FileWithPreview)
    (h : imageContent a = imageContent b) : buildImagePart a = buildImagePart b := by
  cases a; cases b
  simp [imageContent] at h
  simp [buildImagePart, h.1, h.2]

theorem buildImageParts_congr (xs ys : List FileWithPreview)
    (h : xs.map imageContent = ys.map imageContent) :
    buildImageParts xs = buildImageParts ys := by
  induction xs generalizing ys with
  | nil => cases ys <;> simp_all [buildImageParts]
  | cons x xs ih =>
    cases ys with
    | nil => simp at h
    | cons y ys =>
      simp only [List.map_cons, List.cons.injEq] at h
      unfold buildImageParts
      rw [buildImagePart_congr x y h.1, ih ys h.2]

/-- Claim C9: for every image in the collection whose preview is a data URL
with a single comma (the shape `readAsDataURL` produces), the assembled
image-part record carries the image's declared media type and the portion of
the data URL after the first comma as its base64 payload. -/
theorem assembled_part_media_type_and_base64 (images : List FileWithPreview)
    (parts : List GeminiImagePart) (i : Nat) (img : FileWithPreview)
    (p : String) (pre rest : List Char)
    (hparts : buildImageParts images = some parts)
    (himg : images.get? i = some img)
    (hp : img.preview = some p)
    (hdata : p.data = pre ++ ',' :: rest)
    (hpre : ',' ∉ pre) (hrest : ',' ∉ rest) :
    parts.get? i = some ⟨img.fileType, some rest.asString⟩ := by
  rcases (buildImageParts_get? images parts hparts).2 i img himg with ⟨part, hget, hbuild⟩
  have h1 : buildImagePart img = some ⟨img.fileType, (jsSplitComma p).get? 1⟩ := by
    unfold buildImagePart
    rw [hp]
  rw [hbuild, Option.some.injEq] at h1
  have h2 : (jsSplitComma p).get? 1 = some rest.asString := by
    rw [jsSplitComma_of_single_comma p pre rest hdata hpre hrest]
    rfl
  rw [hget, h1, h2]

/-- Witness for C9 at a concrete one-image collection. -/
theorem assembled_part_media_type_and_base64_witness :
    buildImageParts [⟨"a", "image/png", some "data:image/png;base64,QUJD"⟩]
        = some [⟨"image/png", some "QUJD"⟩] ∧
      [(⟨"a", "image/png", some "data:image/png;base64,QUJD"⟩ : FileWithPreview)].get? 0
        = some ⟨"a", "image/png", some "data:image/png;base64,QUJD"⟩ ∧
      "data:image/png;base64,QUJD".data
        = "data:image/png;base64".data ++ ',' :: "QUJD".data ∧
      ',' ∉ "data:image/png;base64".data ∧ ',' ∉ "QUJD".data ∧
      [(⟨"image/png", some "QUJD"⟩ : GeminiImagePart)].get? 0
        = some ⟨"image/png", some ("QUJD".data.asString)⟩ :=
  ⟨by decide, by decide, by decide, by decide, by decide,
    assembled_part_media_type_and_base64
      [⟨"a", "image/png", some "data:image/png;base64,QUJD"⟩]
      [⟨"image/png", some "QUJD"⟩] 0
      ⟨"a", "image/png", some "data:image/png;base64,QUJD"⟩
      "data:image/png;base64,QUJD" "data:image/png;base64".data "QUJD".data
      (by decide) (by decide) (by decide) (by decide) (by decide) (by decide)⟩

/-- Claim C8: request assembly is deterministic and depends only on the
ordered content of the collection (media types and previews) and the
instruction text: equal content yields an identical payload structure. -/
theorem buildRequest_deterministic (instructionText : String)
    (xs ys : List FileWithPreview)
    (h : xs.map imageContent = ys.map imageContent) :
    buildRequest instructionText xs = buildRequest instructionText ys := by
  unfold buildRequest
  rw [buildImageParts_congr xs ys h]

/-- Witness for C8: two collections equal in content but with different ids
yield the same payload. -/
theorem buildRequest_deterministic_witness :
    [(⟨"a", "image/png", some "x,y"⟩ : FileWithPreview)].map imageContent
        = [(⟨"b", "image/png", some "x,y"⟩ : FileWithPreview)].map imageContent ∧
      buildRequest "prompt" [⟨"a", "image/png", some "x,y"⟩]
        = buildRequest "prompt" [⟨"b", "image/png", some "x,y"⟩] :=
  ⟨by decide,
    buildRequest_deterministic "prompt"
      [⟨"a", "image/png", some "x,y"⟩] [⟨"b", "image/png", some "x,y"⟩] (by decide)⟩

/-! ### Removal -/

/-- Claim C7: removing an id that is not present leaves the collection
unchanged, and removing a present id (unique in the collection) deletes
exactly that image while preserving the order of the rest. -/
theorem handleRemoveImage_spec (s : SessionState) (imageId : String) :
    (imageId ∉ s.uploadedImages.map FileWithPreview.id →
      (handleRemoveImage imageId s).uploadedImages = s.uploadedImages) ∧
    ∀ l1 x l2, s.uploadedImages = l1 ++ x :: l2 → x.id = imageId →
      imageId ∉ l1.map FileWithPreview.id → imageId ∉ l2.map FileWithPreview.id →
      (handleRemoveImage imageId s).uploadedImages = l1 ++ l2 := by
  constructor
  · intro h
    unfold handleRemoveImage
    simp only
    rw [List.filter_eq_self]
    intro a ha
    have : a.id ≠ imageId := fun he => h (he ▸ List.mem_map_of_mem FileWithPreview.id ha)
    simpa using this
  · intro l1 x l2 hsplit hx h1 h2
    unfold handleRemoveImage
    simp only [hsplit]
    rw [List.filter_append, List.filter_cons]
    have hxid : (x.id != imageId) = false := by simp [hx]
    rw [hxid]
    simp only [Bool.false_eq_true, if_false]
    have e1 : List.filter (fun img => img.id != imageId) l1 = l1 := by
      rw [List.filter_eq_self]
      intro a ha
      have : a.id ≠ imageId := fun he => h1 (he ▸ List.mem_map_of_mem FileWithPreview.id ha)
      simpa using this
    have e2 : List.filter (fun img => img.id != imageId) l2 = l2 := by
      rw [List.filter_eq_self]
      intro a ha
      have : a.id ≠ imageId := fun he => h2 (he ▸ List.mem_map_of_mem FileWithPreview.id ha)
      simpa using this
    rw [e1, e2]

/-- Witness for C7: removing the absent id `"z"` is a no-op, and removing the
present id `"b"` deletes exactly that image. -/
theorem handleRemoveImage_spec_witness :
    ("z" ∉ ([⟨"a", "t", none⟩, ⟨"b", "t", none⟩] :
        List FileWithPreview).map FileWithPreview.id) ∧
      (handleRemoveImage "z" ⟨[⟨"a", "t", none⟩, ⟨"b", "t", none⟩], none, false, none⟩).uploadedImages
        = [⟨"a", "t", none⟩, ⟨"b", "t", none⟩] ∧
      (handleRemoveImage "b" ⟨[⟨"a", "t", none⟩, ⟨"b", "t", none⟩], none, false, none⟩).uploadedImages
        = [⟨"a", "t", none⟩] :=
  ⟨by decide,
    (handleRemoveImage_spec ⟨[⟨"a", "t", none⟩, ⟨"b", "t", none⟩], none, false, none⟩ "z").1
      (by decide),
    (handleRemoveImage_spec ⟨[⟨"a", "t", none⟩, ⟨"b", "t", none⟩], none, false, none⟩ "b").2
      [⟨"a", "t", none⟩] ⟨"b", "t", none⟩ [] (by decide) (by decide) (by decide) (by decide)⟩

/-! ### The estimate flow -/

/-- `getEstimate` never writes `uploadedImages`: every snapshot in the run and
the final state keep the starting collection. -/
theorem getEstimate_images_frame (apiKey : Bool) (net : NetCall) (s : SessionState) :
    (getEstimate apiKey net s).final.uploadedImages = s.uploadedImages ∧
      ∀ t ∈ (getEstimate apiKey net s).states, t.uploadedImages = s.uploadedImages := by
  unfold getEstimate
  by_cases he : s.uploadedImages.isEmpty
  · simp [he]
  · rcases net with t | ⟨(_ | _), msg⟩ <;> cases apiKey <;>
      rcases hb : buildImageParts s.uploadedImages with _ | parts <;>
        simp [he, hb]

/-- Claim C10: requesting an estimate never modifies the image collection —
whatever the path (validation rejection, missing key, network success or
failure), the final state and every intermediate snapshot carry the starting
collection unchanged. -/
theorem getEstimate_preserves_images (apiKey : Bool) (net : NetCall) (s : SessionState) :
    (getEstimate apiKey net s).final.uploadedImages = s.uploadedImages ∧
      ∀ t ∈ (getEstimate apiKey net s).states, t.uploadedImages = s.uploadedImages :=
  getEstimate_images_frame apiKey net s

/-- Witness for C10 at a concrete one-image state and a successful call: the
loading snapshot is in the trace and carries the starting collection. -/
theorem getEstimate_preserves_images_witness :
    (⟨[⟨"a", "image/png", some "data:image/png;base64,QUJD"⟩], none, true, none⟩ : SessionState)
        ∈ (getEstimate true (.success "est")
            ⟨[⟨"a", "image/png", some "data:image/png;base64,QUJD"⟩], none, false, none⟩).states ∧
      (⟨[⟨"a", "image/png", some "data:image/png;base64,QUJD"⟩], none, true, none⟩ :
          SessionState).uploadedImages
        = [⟨"a", "image/png", some "data:image/png;base64,QUJD"⟩] :=
  ⟨by decide,
    (getEstimate_preserves_images true (.success "est")
        ⟨[⟨"a", "image/png", some "data:image/png;base64,QUJD"⟩], none, false, none⟩).2
      ⟨[⟨"a", "image/png", some "data:image/png;base64,QUJD"⟩], none, true, none⟩
      (by decide)⟩

/-- Claim C2: with an empty collection, requesting an estimate never invokes
the network client, sets the validation error message, and does not enter the
Loading phase (the only snapshot is the final state, whose loading flag is the
prior one). -/
theorem getEstimate_empty_validation (apiKey : Bool) (net : NetCall)
    (s : SessionState) (h : s.uploadedImages = []) :
    (getEstimate apiKey net s).networkCalled = false ∧
      (getEstimate apiKey net s).final.error = some validationMessage ∧
      (getEstimate apiKey net s).final.isLoading = s.isLoading ∧
      (getEstimate apiKey net s).states = [(getEstimate apiKey net s).final] := by
  unfold getEstimate
  simp [h]

/-- Witness for C2 at the initial state. -/
theorem getEstimate_empty_validation_witness :
    initialState.uploadedImages = [] ∧
      ((getEstimate true (.success "x") initialState).networkCalled = false ∧
        (getEstimate true (.success "x") initialState).final.error = some validationMessage ∧
        (getEstimate true (.success "x") initialState).final.isLoading = initialState.isLoading ∧
        (getEstimate true (.success "x") initialState).states
          = [(getEstimate true (.success "x") initialState).final]) :=
  ⟨rfl, getEstimate_empty_validation true (.success "x") initialState rfl⟩

/-! ### Intake: append, truncation, size invariant -/

theorem step_length_le10 (s t : SessionState) (h : Step s t)
    (hs : s.uploadedImages.length ≤ 10) : t.uploadedImages.length ≤ 10 := by
  cases h with
  | upload files order s hperm =>
    unfold handleImageUpload
    by_cases hf : files.isEmpty
    · simpa [hf] using hs
    · simp only [hf, if_false, Bool.false_eq_true]
      calc ((s.uploadedImages ++ decodeBatch files order).take 10).length ≤ 10 :=
        List.length_take_le 10 _
  | remove imageId s =>
    exact le_trans (List.length_filter_le _ _) hs
  | estimate apiKey net s =>
    rw [(getEstimate_images_frame apiKey net s).1]
    exact hs

theorem reachable_length_le10 (s : SessionState) (h : Reachable s) :
    s.uploadedImages.length ≤ 10 := by
  unfold Reachable at h
  induction h with
  | refl => simp [initialState]
  | tail hsteps hstep ih => exact step_length_le10 _ _ hstep ih

/-- Claim C3: after a batch completes, the collection equals the prior
collection concatenated with the newly produced images, truncated to the first
10 entries; the excess is dropped with no error (error and result untouched),
and the collection size is at most 10 after the operation and in every
reachable state. -/
theorem handleImageUpload_append_truncate (files : List PendingFile)
    (order : List Nat) (s : SessionState) (hne : files ≠ []) :
    (handleImageUpload files order s).uploadedImages
        = (s.uploadedImages ++ decodeBatch files order).take 10 ∧
      (handleImageUpload files order s).error = s.error ∧
      (handleImageUpload files order s).estimationResult = s.estimationResult ∧
      (handleImageUpload files order s).uploadedImages.length ≤ 10 ∧
      ∀ t, Reachable t → t.uploadedImages.length ≤ 10 := by
  have hf : files.isEmpty = false := by
    cases files with
    | nil => exact absurd rfl hne
    | cons a l => rfl
  refine ⟨by simp [handleImageUpload, hf], by simp [handleImageUpload, hf],
    by simp [handleImageUpload, hf], ?_, fun t ht => reachable_length_le10 t ht⟩
  simp only [handleImageUpload, hf, if_false, Bool.false_eq_true]
  exact List.length_take_le 10 _

/-- Witness for C3: a two-file batch appended to the empty collection. -/
theorem handleImageUpload_append_truncate_witness :
    ([⟨"a", "image/png", some "u,v"⟩, ⟨"b", "image/png", some "w,x"⟩] :
        List PendingFile) ≠ [] ∧
      (handleImageUpload
          [⟨"a", "image/png", some "u,v"⟩, ⟨"b", "image/png", some "w,x"⟩]
          [0, 1] initialState).uploadedImages
        = (initialState.uploadedImages
            ++ decodeBatch
                [⟨"a", "image/png", some "u,v"⟩, ⟨"b", "image/png", some "w,x"⟩]
                [0, 1]).take 10 :=
  ⟨by decide,
    (handleImageUpload_append_truncate
        [⟨"a", "image/png", some "u,v"⟩, ⟨"b", "image/png", some "w,x"⟩]
        [0, 1] initialState (by decide)).1⟩

/-- Claim C4 evaluated at the failing input: a fully completed two-file batch
whose decode callbacks fire in reverse order is appended in completion order
`["b", "a"]`, not in the submission order `["a", "b"]`. -/
theorem handleImageUpload_appends_in_completion_order :
    List.Perm [1, 0] (List.range 2) ∧
      ([⟨"a", "image/png", some "p,q"⟩, ⟨"b", "image/jpeg", some "r,s"⟩] :
          List PendingFile).map PendingFile.id = ["a", "b"] ∧
      (handleImageUpload
          [⟨"a", "image/png", some "p,q"⟩, ⟨"b", "image/jpeg", some "r,s"⟩]
          [1, 0] initialState).uploadedImages.map FileWithPreview.id = ["b", "a"] ∧
      (["b", "a"] : List String) ≠ ["a", "b"] := by
  decide

/-! ### Intake: failed decodes and batch completion -/

/-- Counterexample to C5: in a two-file batch whose second file fails to
decode, the failed file is not skipped — the `onloadend` callback fires on
failure too and pushes a `FileWithPreview` whose preview is `null`, and the
completion check fires at the original selection count of 2. -/
theorem handleImageUpload_failed_file_not_skipped :
    List.Perm [0, 1] (List.range 2) ∧
      (handleImageUpload
          [⟨"g", "image/png", some "p,q"⟩, ⟨"b", "image/png", none⟩]
          [0, 1] initialState).uploadedImages
        = [⟨"g", "image/png", some "p,q"⟩, ⟨"b", "image/png", none⟩] ∧
      (handleImageUpload
          [⟨"g", "image/png", some "p,q"⟩, ⟨"b", "image/png", none⟩]
          [0, 1] initialState).uploadedImages.length = 2 := by
  decide

theorem decodeBatch_length (files : List PendingFile) (order : List Nat)
    (h : ∀ i ∈ order, i < files.length) :
    (decodeBatch files order).length = order.length := by
  induction order with
  | nil => rfl
  | cons i rest ih =>
    have hi : i < files.length := h i (List.mem_cons_self i rest)
    have hg : files.get? i = some (files.get ⟨i, hi⟩) := List.get?_eq_get hi
    have hrest : ∀ j ∈ rest, j < files.length :=
      fun j hj => h j (List.mem_cons_of_mem i hj)
    rw [List.get?_eq_getElem?] at hg
    simp [decodeBatch, List.filterMap_cons, hg]
    intro a ha
    rw [List.getElem?_eq_getElem (hrest a ha)]
    rfl

/-- Claim C5, amended: a malformed or unreadable file does not block decoding
of sibling files (every successfully decoded file contributes its image) and
does not stall the batch: the completion signal fires at the original
selection count — every file, failed ones included, contributes exactly one
entry — and the completed batch is appended and truncated as usual. -/
theorem handleImageUpload_batch_completion (files : List PendingFile)
    (order : List Nat) (s : SessionState)
    (hperm : List.Perm order (List.range files.length)) (hne : files ≠ []) :
    (decodeBatch files order).length = files.length ∧
      (∀ i f, files.get? i = some f → fileToImage f ∈ decodeBatch files order) ∧
      (handleImageUpload files order s).uploadedImages
        = (s.uploadedImages ++ decodeBatch files order).take 10 := by
  have hmem : ∀ i ∈ order, i < files.length := by
    intro i hi
    exact List.mem_range.mp (hperm.mem_iff.mp hi)
  refine ⟨?_, ?_, ?_⟩
  · rw [decodeBatch_length files order hmem, hperm.length_eq, List.length_range]
  · intro i f hf
    have hi : i < files.length := by
      rcases List.get?_eq_some.mp hf with ⟨hlt, _⟩
      exact hlt
    have hio : i ∈ order := hperm.mem_iff.mpr (List.mem_range.mpr hi)
    exact List.mem_filterMap.mpr ⟨i, hio, by rw [hf]; rfl⟩
  · have hf : files.isEmpty = false := by
      cases files with
      | nil => exact absurd rfl hne
      | cons a l => rfl
    simp [handleImageUpload, hf]

/-- Witness for C5 (amended) at a two-file batch with one failing decode. -/
theorem handleImageUpload_batch_completion_witness :
    List.Perm [1, 0] (List.range
        ([⟨"g", "image/png", some "p,q"⟩, ⟨"b", "image/png", none⟩] :
          List PendingFile).length) ∧
      ([⟨"g", "image/png", some "p,q"⟩, ⟨"b", "image/png", none⟩] :
          List PendingFile) ≠ [] ∧
      (decodeBatch [⟨"g", "image/png", some "p,q"⟩, ⟨"b", "image/png", none⟩]
          [1, 0]).length
        = ([⟨"g", "image/png", some "p,q"⟩, ⟨"b", "image/png", none⟩] :
            List PendingFile).length :=
  ⟨by decide, by decide,
    (handleImageUpload_batch_completion
        [⟨"g", "image/png", some "p,q"⟩, ⟨"b", "image/png", none⟩]
        [1, 0] initialState (by decide) (by decide)).1⟩

/-! ### The estimate flow: phases -/

/-- Counterexample to C1 as stated: with the API key missing, the flow warns
and continues (the early return is commented out), so a successful network
call stores the result text while the configuration error message set before
the call is left in place — the error is not cleared on success. -/
theorem getEstimate_success_error_not_cleared :
    (getEstimate false (.success "est")
        ⟨[⟨"a", "image/png", some "data:image/png;base64,QUJD"⟩], none, false, none⟩).networkCalled
        = true ∧
      (getEstimate false (.success "est")
          ⟨[⟨"a", "image/png", some "data:image/png;base64,QUJD"⟩], none, false, none⟩).final.estimationResult
        = some ⟨"est"⟩ ∧
      (getEstimate false (.success "est")
          ⟨[⟨"a", "image/png", some "data:image/png;base64,QUJD"⟩], none, false, none⟩).final.error
        = some apiKeyMessage := by
  decide

/-- Claim C1, amended: with a non-empty collection the flow first enters the
Loading phase with prior result and error cleared; if the network call is made
and succeeds, the result text is stored, loading ends, and the error is left
cleared when the API key is configured but holds the configuration message
when it is missing; if the call is made and rejects with an `Error`, the error
message is the fixed lead followed by the failure detail, the result is left
unset, and loading ends. -/
theorem getEstimate_nonempty_flow (apiKey : Bool) (net : NetCall)
    (s : SessionState) (hne : s.uploadedImages ≠ []) :
    (getEstimate apiKey net s).states.head?
        = some { s with isLoading := true, error := none, estimationResult := none } ∧
      (∀ t, net = .success t → (getEstimate apiKey net s).networkCalled = true →
        (getEstimate apiKey net s).final.estimationResult = some ⟨t⟩ ∧
          (getEstimate apiKey net s).final.isLoading = false ∧
          (getEstimate apiKey net s).final.error
            = (if apiKey then none else some apiKeyMessage)) ∧
      ∀ msg, net = .failure true msg → (getEstimate apiKey net s).networkCalled = true →
        (getEstimate apiKey net s).final.error = some (estimateErrorLead ++ msg) ∧
          (getEstimate apiKey net s).final.estimationResult = none ∧
          (getEstimate apiKey net s).final.isLoading = false := by
  have he : s.uploadedImages.isEmpty = false := by
    cases hs : s.uploadedImages with
    | nil => exact absurd hs hne
    | cons a l => rfl
  unfold getEstimate
  rcases net with t | ⟨(_ | _), msg⟩ <;> cases apiKey <;>
    rcases hb : buildImageParts s.uploadedImages with _ | parts <;>
      simp [he, hb]

/-- Witness for C1 (amended): success with the key configured at a concrete
one-image state stores the result and leaves the error cleared. -/
theorem getEstimate_nonempty_flow_witness :
    ([⟨"a", "image/png", some "data:image/png;base64,QUJD"⟩] :
        List FileWithPreview) ≠ [] ∧
      (.success "est" : NetCall) = .success "est" ∧
      (getEstimate true (.success "est")
          ⟨[⟨"a", "image/png", some "data:image/png;base64,QUJD"⟩], none, false, none⟩).networkCalled
        = true ∧
      (getEstimate true (.success "est")
          ⟨[⟨"a", "image/png", some "data:image/png;base64,QUJD"⟩], none, false, none⟩).final.estimationResult
        = some ⟨"est"⟩ :=
  ⟨by decide, rfl, by decide,
    ((getEstimate_nonempty_flow true (.success "est")
        ⟨[⟨"a", "image/png", some "data:image/png;base64,QUJD"⟩], none, false, none⟩
        (by decide)).2.1 "est" rfl (by decide)).1⟩

/-! ### Result/error exclusivity -/

/-- Counterexample to C6 as stated: a reachable state carrying both a success
result and an error.  Upload one image, then request an estimate with the API
key missing and a successful network call: the configuration error set before
the call persists alongside the stored result. -/
theorem reachable_result_and_error_both_present :
    Reachable ⟨[⟨"a", "image/png", some "data:image/png;base64,QUJD"⟩],
        some ⟨"est"⟩, false, some apiKeyMessage⟩ ∧
      (some (⟨"est"⟩ : EstimationResult)).isSome = true ∧
      (some apiKeyMessage).isSome = true := by
  refine ⟨?_, rfl, rfl⟩
  have h1 : Step initialState
      ⟨[⟨"a", "image/png", some "data:image/png;base64,QUJD"⟩], none, false, none⟩ := by
    have e : handleImageUpload [⟨"a", "image/png", some "data:image/png;base64,QUJD"⟩]
        [0] initialState
        = ⟨[⟨"a", "image/png", some "data:image/png;base64,QUJD"⟩], none, false, none⟩ := by
      decide
    exact e ▸ Step.upload [⟨"a", "image/png", some "data:image/png;base64,QUJD"⟩]
      [0] initialState (by decide)
  have h2 : Step ⟨[⟨"a", "image/png", some "data:image/png;base64,QUJD"⟩], none, false, none⟩
      ⟨[⟨"a", "image/png", some "data:image/png;base64,QUJD"⟩],
        some ⟨"est"⟩, false, some apiKeyMessage⟩ := by
    have e : (getEstimate false (.success "est")
        ⟨[⟨"a", "image/png", some "data:image/png;base64,QUJD"⟩], none, false, none⟩).final
        = ⟨[⟨"a", "image/png", some "data:image/png;base64,QUJD"⟩],
            some ⟨"est"⟩, false, some apiKeyMessage⟩ := by
      decide
    exact e ▸ Step.estimate false (.success "est")
      ⟨[⟨"a", "image/png", some "data:image/png;base64,QUJD"⟩], none, false, none⟩
  exact Relation.ReflTransGen.tail (Relation.ReflTransGen.single h1) h2

/-- Claim C6, amended: during and after an estimate request on a non-empty
collection made with the API key configured, a success result and an error
are never both present — every snapshot of the run and the final state carry
at most one of them.  (The exclusivity can fail in reachable states when the
key is missing: the configuration error persists alongside a subsequent
success result.) -/
theorem getEstimate_result_error_exclusive (net : NetCall) (s : SessionState)
    (hne : s.uploadedImages ≠ []) :
    (∀ t ∈ (getEstimate true net s).states,
        t.estimationResult = none ∨ t.error = none) ∧
      ((getEstimate true net s).final.estimationResult = none ∨
        (getEstimate true net s).final.error = none) := by
  have he : s.uploadedImages.isEmpty = false := by
    cases hs : s.uploadedImages with
    | nil => exact absurd hs hne
    | cons a l => rfl
  unfold getEstimate
  rcases net with t | ⟨(_ | _), msg⟩ <;>
    rcases hb : buildImageParts s.uploadedImages with _ | parts <;>
      simp [he, hb]

/-- Witness for C6 (amended) at a concrete one-image state with a successful
call. -/
theorem getEstimate_result_error_exclusive_witness :
    ([⟨"a", "image/png", some "data:image/png;base64,QUJD"⟩] :
        List FileWithPreview) ≠ [] ∧
      ((getEstimate true (.success "est")
          ⟨[⟨"a", "image/png", some "data:image/png;base64,QUJD"⟩], none, false, none⟩).final.estimationResult
          = none ∨
        (getEstimate true (.success "est")
          ⟨[⟨"a", "image/png", some "data:image/png;base64,QUJD"⟩], none, false, none⟩).final.error
          = none) :=
  ⟨by decide,
    (getEstimate_result_error_exclusive (.success "est")
        ⟨[⟨"a", "image/png", some "data:image/png;base64,QUJD"⟩], none, false, none⟩
        (by decide)).2⟩

end KaitaiAI
